import Mathlib

/-!
# naev: star system editor viewport (`dev_sysedit.c`) and shiplog Lua bindings (`nlua_shiplog.c`)

Shallow embedding of the editor's static viewport variables, of the handlers that
mutate them, of the render callback and of the two shiplog bindings, followed by
the statements proved about them.

Conventions of the embedding

* C `double` values are modelled by exact rationals (`ℚ`).  Every zoom level the
  editor can reach is a dyadic rational, so the zoom arithmetic is exact in
  binary floating point as well.
* `int sysedit_moved` is a 32-bit signed integer: additions are reduced into
  `[-2^31, 2^31)`.
* `SDL_GetTicks ()` and `SDL_GetModState ()` are inputs of the mouse handler.
* Calls into the graphics layer and into the log store are recorded, not run: the
  render callback returns its draw calls, the bindings take the store as an argument.
-/

namespace SysEdit

/-! ## Constants -/

/-- Drag threshold in milliseconds, `SYSEDIT_DRAG_THRESHOLD`; every use of it in the
source lies in a block disabled by the preprocessor. -/
def SYSEDIT_DRAG_THRESHOLD : Nat := 300

/-- Movement threshold in pixels, `SYSEDIT_MOVE_THRESHOLD`; every use of it in the
source lies in a block disabled by the preprocessor. -/
def SYSEDIT_MOVE_THRESHOLD : Int := 10

/-- SDL 1.2 button number of a wheel-up press. -/
def SDL_BUTTON_WHEELUP : Nat := 4

/-- SDL 1.2 button number of a wheel-down press. -/
def SDL_BUTTON_WHEELDOWN : Nat := 5

/-- SDL 1.2 modifier bit of the left Ctrl key (`0x0040`). -/
def KMOD_LCTRL : Nat := 0x0040

/-- SDL 1.2 modifier bit of the right Ctrl key (`0x0080`). -/
def KMOD_RCTRL : Nat := 0x0080

/-! ## Machine integers -/

/-- Reduction of a mathematical integer into the range of a 32-bit `int`. -/
def wrapInt32 (n : Int) : Int :=
  (n + 2147483648) % 4294967296 - 2147483648

/-- Modelled from the spec: the `ABS` helper of `naev.h`, which is not among the
sources; the absolute value `|x|` of an `int`. -/
def ABS (x : Int) : Int :=
  if x < 0 then -x else x

/-- Modelled from the spec: the `MIN` helper of `naev.h`, which is not among the
sources; the smaller of two doubles (the upper clamp of the zoom). -/
def MIN (a b : ℚ) : ℚ :=
  if a < b then a else b

/-- Modelled from the spec: the `MAX` helper of `naev.h`, which is not among the
sources; the larger of two doubles (the lower clamp of the zoom). -/
def MAX (a b : ℚ) : ℚ :=
  if a > b then a else b

/-! ## Editor state -/

/-- The static variables of `dev_sysedit.c` that the handlers read and write. -/
structure State where
  /-- `sysedit_xpos`: viewport X position. -/
  sysedit_xpos : ℚ
  /-- `sysedit_ypos`: viewport Y position. -/
  sysedit_ypos : ℚ
  /-- `sysedit_zoom`: viewport zoom level. -/
  sysedit_zoom : ℚ
  /-- `sysedit_moved`: space moved since mouse down. -/
  sysedit_moved : Int
  /-- `sysedit_dragTime`: tick at which the drag started. -/
  sysedit_dragTime : Nat
  /-- `sysedit_drag`: dragging the viewport around. -/
  sysedit_drag : Int
  /-- `sysedit_dragSys`: dragging a system around (never written). -/
  sysedit_dragSys : Int
  deriving DecidableEq, Repr

/-- Values of the static variables at program start. -/
def State.initial : State :=
  { sysedit_xpos := 0, sysedit_ypos := 0, sysedit_zoom := 1, sysedit_moved := 0,
    sysedit_dragTime := 0, sysedit_drag := 0, sysedit_dragSys := 0 }

/-- The variable resets of `sysedit_open`: drag off, zoom `1`, pan at the origin; the
other statics keep the values they had. -/
def sysedit_open (s : State) : State :=
  { s with sysedit_drag := 0, sysedit_zoom := 1, sysedit_xpos := 0, sysedit_ypos := 0 }

/-- Effect of `sysedit_buttonZoom (wid, str)` on the viewport variables: the pan is
divided by the zoom, the zoom is stepped and clamped, the pan is multiplied by the
new zoom. -/
def sysedit_buttonZoom (str : String) (s : State) : State :=
  -- Transform coords to normal.
  let x := s.sysedit_xpos / s.sysedit_zoom
  let y := s.sysedit_ypos / s.sysedit_zoom
  -- Apply zoom.
  let z :=
    if str = "btnZoomIn" then
      MIN (5 / 2) (s.sysedit_zoom + (if s.sysedit_zoom ≥ 1 then 1 / 2 else 1 / 4))
    else if str = "btnZoomOut" then
      MAX (1 / 4) (s.sysedit_zoom - (if s.sysedit_zoom > 1 then 1 / 2 else 1 / 4))
    else
      s.sysedit_zoom
  -- Transform coords back.
  { s with sysedit_xpos := x * z, sysedit_ypos := y * z, sysedit_zoom := z }

/-! ## Mouse handling -/

/-- The SDL events the mouse handler distinguishes. -/
inductive SDL_Event where
  /-- `SDL_MOUSEBUTTONDOWN` with `button.button`. -/
  | mouseButtonDown (button : Nat)
  /-- `SDL_MOUSEBUTTONUP` with `button.button`. -/
  | mouseButtonUp (button : Nat)
  /-- `SDL_MOUSEMOTION` with `motion.xrel` and `motion.yrel` (both `Sint16`). -/
  | mouseMotion (xrel yrel : Int)
  /-- Any other event type. -/
  | other
  deriving DecidableEq, Repr

/-- One invocation of the custom widget's mouse callback. -/
structure MouseCall where
  /-- The event. -/
  event : SDL_Event
  /-- Cursor X relative to the widget. -/
  mx : ℚ
  /-- Cursor Y relative to the widget. -/
  my : ℚ
  /-- Widget width. -/
  w : ℚ
  /-- Widget height. -/
  h : ℚ
  /-- Value of `SDL_GetModState ()`. -/
  mod : Nat
  /-- Value of `SDL_GetTicks ()`. -/
  ticks : Nat
  deriving DecidableEq, Repr

/-- Whether one of the Ctrl modifier bits is set. -/
def ctrlHeld (mod : Nat) : Bool :=
  (mod &&& (KMOD_LCTRL ||| KMOD_RCTRL)) != 0

/-- Effect of `sysedit_mouse` on the viewport variables. The blocks that the source
disables with `#if 0` are not part of the program and are left out. -/
def sysedit_mouse (c : MouseCall) (s : State) : State :=
  match c.event with
  | .mouseButtonDown button =>
    -- Must be in bounds.
    if c.mx < 0 ∨ c.mx > c.w ∨ c.my < 0 ∨ c.my > c.h then s
    -- Zooming
    else if button = SDL_BUTTON_WHEELUP then sysedit_buttonZoom "btnZoomIn" s
    else if button = SDL_BUTTON_WHEELDOWN then sysedit_buttonZoom "btnZoomOut" s
    -- Start dragging.
    else if !ctrlHeld c.mod then
      { s with sysedit_drag := 1, sysedit_dragTime := c.ticks, sysedit_moved := 0 }
    else s
  | .mouseButtonUp _ =>
    if s.sysedit_drag ≠ 0 then { s with sysedit_drag := 0 } else s
  | .mouseMotion xrel yrel =>
    -- Handle dragging.
    if s.sysedit_drag ≠ 0 then
      { s with
        -- axis is inverted
        sysedit_xpos := s.sysedit_xpos - xrel
        sysedit_ypos := s.sysedit_ypos + yrel
        -- Update mousemovement.
        sysedit_moved := wrapInt32 (s.sysedit_moved + (ABS xrel + ABS yrel)) }
    else s
  | .other => s

/-- The user-interface events that reach the viewport variables. -/
inductive Event where
  /-- A click on the `+` button. -/
  | zoomIn
  /-- A click on the `-` button. -/
  | zoomOut
  /-- A mouse event delivered to the viewport widget. -/
  | mouse (c : MouseCall)
  deriving DecidableEq, Repr

/-- Effect of one event. -/
def step (s : State) : Event → State
  | .zoomIn => sysedit_buttonZoom "btnZoomIn" s
  | .zoomOut => sysedit_buttonZoom "btnZoomOut" s
  | .mouse c => sysedit_mouse c s

/-- Effect of a finite sequence of events, oldest first. -/
def run (es : List Event) (s : State) : State :=
  es.foldl step s

/-- The zoom levels of the editor. -/
def zoomLevels : List ℚ := [1 / 4, 1 / 2, 3 / 4, 1, 3 / 2, 2, 5 / 2]

/-- Zoom range shared by the statements below. -/
def zoomInRange (s : State) : Prop := 1 / 4 ≤ s.sysedit_zoom ∧ s.sysedit_zoom ≤ 5 / 2

/-- The zoom-out rule as the specification words it: the step rule of zoom-in
(`0.5` when the zoom is at least `1`, else `0.25`), subtracted, then clamped below. -/
def specZoomOut (z : ℚ) : ℚ :=
  max (1 / 4) (z - (if z ≥ 1 then 1 / 2 else 1 / 4))

/-- A left-button press inside a `650 x 500` viewport at tick `t`, no modifier held. -/
def pressAt (t : Nat) : MouseCall :=
  { event := .mouseButtonDown 1, mx := 10, my := 10, w := 650, h := 500, mod := 0, ticks := t }

/-- A left-button release at tick `t`. -/
def releaseAt (t : Nat) : MouseCall :=
  { event := .mouseButtonUp 1, mx := 10, my := 10, w := 650, h := 500, mod := 0, ticks := t }

end SysEdit

namespace NluaShiplog

/-! ## Lua values and the auxiliary-library calls the bindings use -/

/-- A Lua value as the bindings can tell them apart. -/
inductive LuaValue where
  /-- The value `nil`. -/
  | nil
  /-- A boolean. -/
  | boolean (b : Bool)
  /-- A number. -/
  | number (n : ℚ)
  /-- A string. -/
  | string (s : String)
  /-- A table, function, userdata or thread. -/
  | other
  deriving DecidableEq, Repr

/-- The coercions of the Lua runtime between numbers, strings and C integers. -/
structure LuaCoercions where
  /-- Number to string (`lua_Number2str`). -/
  numberToString : ℚ → String
  /-- String to number when the string is a numeral. -/
  stringToNumber : String → Option ℚ
  /-- Number to C `int`. -/
  numberToInt : ℚ → Int

/-- An argument error raised by the auxiliary library: position and expected type. -/
structure LuaError where
  /-- Argument position. -/
  narg : Nat
  /-- Name of the expected type. -/
  expected : String
  deriving DecidableEq, Repr

/-- The arguments of a call, argument 1 first. -/
abbrev lua_State := List LuaValue

/-- Number of arguments, `lua_gettop`. -/
def lua_gettop (L : lua_State) : Nat := L.length

/-- Value at a positive stack index; absent indices read as none. -/
def lua_index (L : lua_State) (i : Nat) : Option LuaValue := L.get? (i - 1)

/-- Truth value of an argument, `lua_toboolean`: false for `nil`, `false` and
absent arguments. -/
def lua_toboolean (L : lua_State) (i : Nat) : Int :=
  match lua_index L i with
  | none => 0
  | some .nil => 0
  | some (.boolean false) => 0
  | some _ => 1

/-- String argument, `luaL_checkstring`: numbers are converted, anything else is an
argument error. -/
def luaL_checkstring (cv : LuaCoercions) (L : lua_State) (i : Nat) : Except LuaError String :=
  match lua_index L i with
  | some (.string s) => .ok s
  | some (.number n) => .ok (cv.numberToString n)
  | _ => .error { narg := i, expected := "string" }

/-- Integer argument, `luaL_checkint`: numerals are converted, anything else is an
argument error. -/
def luaL_checkint (cv : LuaCoercions) (L : lua_State) (i : Nat) : Except LuaError Int :=
  match lua_index L i with
  | some (.number n) => .ok (cv.numberToInt n)
  | some (.string s) =>
    match cv.stringToNumber s with
    | some n => .ok (cv.numberToInt n)
    | none => .error { narg := i, expected := "number" }
  | _ => .error { narg := i, expected := "number" }

/-- The part of a Lua string a C function sees through a `char` pointer: up to the
first NUL. -/
def cstr (s : String) : String :=
  String.mk (s.data.takeWhile (fun ch => ch ≠ Char.ofNat 0))

/-- The C library `strlen`. -/
def strlen (s : String) : Nat := (cstr s).length

/-- Modelled from the spec: the `MAX` helper of `naev.h`, which is not among the
sources; the larger of two `int`s. -/
def MAX (a b : Int) : Int :=
  if a > b then a else b

/-! ## The log store -/

/-- The log store behind the bindings (`shiplog.h`, not among the sources), taken as
an argument: its two operations act on a store state `σ` and return their `int`
result together with the new state. -/
structure LogStore (σ : Type) where
  /-- The call `shiplog_create (idstr, logname, type, overwrite, maxLen)`; a `NULL`
  `idstr` is `none`. -/
  shiplog_create : Option String → String → String → Int → Int → σ → Int × σ
  /-- The call `shiplog_append (idstr, msg)`. -/
  shiplog_append : String → String → σ → Int × σ

/-! ## The bindings -/

/-- The binding `shiplog.createLog`: the number pushed as the single result and the
store state after the call, or the argument error raised. -/
def shiplog_createLog {σ : Type} (cv : LuaCoercions) (store : LogStore σ) (L : lua_State)
    (st : σ) : Except LuaError (Int × σ) := do
  -- Parameters.
  let nidstr ← luaL_checkstring cv L 1
  let logname ← luaL_checkstring cv L 2
  let logtype ← luaL_checkstring cv L 3
  let overwrite := lua_toboolean L 4
  let maxLen ← if lua_gettop L > 4 then (luaL_checkint cv L 5).map (MAX 0) else pure 0
  let idstr := if strlen nidstr > 0 then some (cstr nidstr) else none
  -- Create a new shiplog
  let r := store.shiplog_create idstr (cstr logname) (cstr logtype) overwrite maxLen st
  pure (0, r.2)

/-- The binding `shiplog.appendLog`: the number pushed as the single result and the
store state after the call, or the argument error raised. -/
def shiplog_appendLog {σ : Type} (cv : LuaCoercions) (store : LogStore σ) (L : lua_State)
    (st : σ) : Except LuaError (Int × σ) := do
  let idstr ← luaL_checkstring cv L 1
  let msg ← luaL_checkstring cv L 2
  let r := store.shiplog_append (cstr idstr) (cstr msg) st
  pure (r.1, r.2)

/-- A log as a small store keeps it: identifier, name, type, length cap, entries. -/
structure Log where
  /-- Identifier string, if any. -/
  idstr : Option String
  /-- Name of the log. -/
  logname : String
  /-- Type of the log. -/
  logtype : String
  /-- Length cap, `0` for none. -/
  maxLen : Int
  /-- Entries, oldest first. -/
  entries : List String
  deriving DecidableEq, Repr

/-- A small store used to run the bindings: creating a log appends it and returns
its index as identifier; appending returns `0` when a log carries the identifier
and `-1` otherwise. -/
def listStore : LogStore (List Log) where
  shiplog_create := fun idstr logname logtype _ maxLen st =>
    ((st.length : Int),
     st ++ [{ idstr := idstr, logname := logname, logtype := logtype, maxLen := maxLen,
              entries := [] }])
  shiplog_append := fun idstr msg st =>
    if st.any (fun l => l.idstr == some idstr) then
      (0, st.map (fun l => if l.idstr == some idstr then { l with entries := l.entries ++ [msg] }
                           else l))
    else (-1, st)

/-- Two logs already in the store. -/
def twoLogs : List Log :=
  [{ idstr := some "travel", logname := "Travel Log", logtype := "travel", maxLen := 0,
     entries := [] },
   { idstr := none, logname := "Trade Log", logtype := "trade", maxLen := 10,
     entries := ["Sold ore"] }]

/-- Coercions for calls that pass no number where a string is expected. -/
def plainCoercions : LuaCoercions where
  numberToString := fun _ => ""
  stringToNumber := fun _ => none
  numberToInt := fun n => n.floor

/-- The arguments of `shiplog.createLog ("shadow", "Shadow Run", "mission", false)`. -/
def createArgs : lua_State :=
  [.string "shadow", .string "Shadow Run", .string "mission", .boolean false]

end NluaShiplog

namespace SysEdit

/-! ## Auxiliary facts on the zoom step -/

theorem MIN_eq_min (a b : ℚ) : MIN a b = min a b := by
  unfold MIN
  split_ifs with h
  · exact (min_eq_left h.le).symm
  · exact (min_eq_right (not_lt.mp h)).symm

theorem MAX_eq_max (a b : ℚ) : MAX a b = max a b := by
  unfold MAX
  split_ifs with h
  · exact (max_eq_left (le_of_lt h)).symm
  · exact (max_eq_right (not_lt.mp h)).symm

theorem zoomIn_zoom (s : State) :
    (sysedit_buttonZoom "btnZoomIn" s).sysedit_zoom
      = MIN (5 / 2) (s.sysedit_zoom + (if s.sysedit_zoom ≥ 1 then 1 / 2 else 1 / 4)) := by
  simp [sysedit_buttonZoom]

theorem zoomOut_zoom (s : State) :
    (sysedit_buttonZoom "btnZoomOut" s).sysedit_zoom
      = MAX (1 / 4) (s.sysedit_zoom - (if s.sysedit_zoom > 1 then 1 / 2 else 1 / 4)) := by
  simp [sysedit_buttonZoom]

theorem buttonZoom_xpos (str : String) (s : State) :
    (sysedit_buttonZoom str s).sysedit_xpos
      = s.sysedit_xpos / s.sysedit_zoom * (sysedit_buttonZoom str s).sysedit_zoom := by
  simp [sysedit_buttonZoom]

theorem buttonZoom_ypos (str : String) (s : State) :
    (sysedit_buttonZoom str s).sysedit_ypos
      = s.sysedit_ypos / s.sysedit_zoom * (sysedit_buttonZoom str s).sysedit_zoom := by
  simp [sysedit_buttonZoom]

theorem zoomIn_range (s : State) (h : zoomInRange s) :
    zoomInRange (sysedit_buttonZoom "btnZoomIn" s) := by
  obtain ⟨h1, h2⟩ := h
  unfold zoomInRange
  rw [zoomIn_zoom, MIN_eq_min]
  constructor
  · apply le_min
    · norm_num
    · split_ifs <;> linarith
  · exact min_le_left _ _

theorem zoomOut_range (s : State) (h : zoomInRange s) :
    zoomInRange (sysedit_buttonZoom "btnZoomOut" s) := by
  obtain ⟨h1, h2⟩ := h
  unfold zoomInRange
  rw [zoomOut_zoom, MAX_eq_max]
  constructor
  · exact le_max_left _ _
  · apply max_le
    · norm_num
    · split_ifs <;> linarith

theorem mouse_zoom_cases (c : MouseCall) (s : State) :
    sysedit_mouse c s = sysedit_buttonZoom "btnZoomIn" s
      ∨ sysedit_mouse c s = sysedit_buttonZoom "btnZoomOut" s
      ∨ ((sysedit_mouse c s).sysedit_zoom = s.sysedit_zoom) := by
  unfold sysedit_mouse
  cases c.event with
  | mouseButtonDown b =>
    dsimp only
    split_ifs <;> simp
  | mouseButtonUp b =>
    dsimp only
    split_ifs <;> simp
  | mouseMotion x y =>
    dsimp only
    split_ifs <;> simp
  | other => simp

theorem step_range (s : State) (e : Event) (h : zoomInRange s) : zoomInRange (step s e) := by
  cases e with
  | zoomIn => exact zoomIn_range s h
  | zoomOut => exact zoomOut_range s h
  | mouse c =>
    show zoomInRange (sysedit_mouse c s)
    rcases mouse_zoom_cases c s with h1 | h1 | h1
    · rw [h1]; exact zoomIn_range s h
    · rw [h1]; exact zoomOut_range s h
    · unfold zoomInRange at *; rw [h1]; exact h

theorem run_range (es : List Event) (s : State) (h : zoomInRange s) :
    zoomInRange (run es s) := by
  induction es generalizing s with
  | nil => exact h
  | cons e es ih => exact ih (step s e) (step_range s e h)

theorem open_range (s : State) : zoomInRange (sysedit_open s) := by
  unfold zoomInRange sysedit_open
  norm_num

theorem mem_zoomLevels (z : ℚ) :
    z ∈ zoomLevels ↔
      z = 1 / 4 ∨ z = 1 / 2 ∨ z = 3 / 4 ∨ z = 1 ∨ z = 3 / 2 ∨ z = 2 ∨ z = 5 / 2 := by
  simp [zoomLevels]

theorem zoomIn_levels (s : State) (h : s.sysedit_zoom ∈ zoomLevels) :
    (sysedit_buttonZoom "btnZoomIn" s).sysedit_zoom ∈ zoomLevels := by
  rw [zoomIn_zoom]
  rw [mem_zoomLevels] at h
  rcases h with h | h | h | h | h | h | h <;> rw [h] <;> norm_num [MIN, zoomLevels]

theorem zoomOut_levels (s : State) (h : s.sysedit_zoom ∈ zoomLevels) :
    (sysedit_buttonZoom "btnZoomOut" s).sysedit_zoom ∈ zoomLevels := by
  rw [zoomOut_zoom]
  rw [mem_zoomLevels] at h
  rcases h with h | h | h | h | h | h | h <;> rw [h] <;> norm_num [MAX, zoomLevels]

theorem step_levels (s : State) (e : Event) (h : s.sysedit_zoom ∈ zoomLevels) :
    (step s e).sysedit_zoom ∈ zoomLevels := by
  cases e with
  | zoomIn => exact zoomIn_levels s h
  | zoomOut => exact zoomOut_levels s h
  | mouse c =>
    show (sysedit_mouse c s).sysedit_zoom ∈ zoomLevels
    rcases mouse_zoom_cases c s with h1 | h1 | h1
    · rw [h1]; exact zoomIn_levels s h
    · rw [h1]; exact zoomOut_levels s h
    · rw [h1]; exact h

theorem run_levels (es : List Event) (s : State) (h : s.sysedit_zoom ∈ zoomLevels) :
    (run es s).sysedit_zoom ∈ zoomLevels := by
  induction es generalizing s with
  | nil => exact h
  | cons e es ih => exact ih (step s e) (step_levels s e h)

theorem open_levels (s : State) : (sysedit_open s).sysedit_zoom ∈ zoomLevels := by
  simp [sysedit_open, zoomLevels]

/-- Two zoom steps in a row that bring the zoom back bring the whole state back. -/
theorem buttonZoom_undo (a b : String) (s : State) (h0 : s.sysedit_zoom ≠ 0)
    (h1 : (sysedit_buttonZoom a s).sysedit_zoom ≠ 0)
    (h2 : (sysedit_buttonZoom b (sysedit_buttonZoom a s)).sysedit_zoom = s.sysedit_zoom) :
    sysedit_buttonZoom b (sysedit_buttonZoom a s) = s := by
  have hx := buttonZoom_xpos b (sysedit_buttonZoom a s)
  have hy := buttonZoom_ypos b (sysedit_buttonZoom a s)
  rw [h2, buttonZoom_xpos a s] at hx
  rw [h2, buttonZoom_ypos a s] at hy
  have hx' : (sysedit_buttonZoom b (sysedit_buttonZoom a s)).sysedit_xpos = s.sysedit_xpos := by
    rw [hx]; field_simp; ring
  have hy' : (sysedit_buttonZoom b (sysedit_buttonZoom a s)).sysedit_ypos = s.sysedit_ypos := by
    rw [hy]; field_simp; ring
  have hm : (sysedit_buttonZoom b (sysedit_buttonZoom a s)).sysedit_moved = s.sysedit_moved := rfl
  have ht : (sysedit_buttonZoom b (sysedit_buttonZoom a s)).sysedit_dragTime
      = s.sysedit_dragTime := rfl
  have hd : (sysedit_buttonZoom b (sysedit_buttonZoom a s)).sysedit_drag = s.sysedit_drag := rfl
  have hs : (sysedit_buttonZoom b (sysedit_buttonZoom a s)).sysedit_dragSys
      = s.sysedit_dragSys := rfl
  generalize sysedit_buttonZoom b (sysedit_buttonZoom a s) = t at *
  cases t; cases s
  simp_all

theorem levels_pos (z : ℚ) (h : z ∈ zoomLevels) : 0 < z := by
  rw [mem_zoomLevels] at h
  rcases h with h | h | h | h | h | h | h <;> rw [h] <;> norm_num

theorem zoomIn_then_out_levels (s : State) (h : s.sysedit_zoom ∈ zoomLevels)
    (hne : s.sysedit_zoom ≠ 5 / 2) :
    (sysedit_buttonZoom "btnZoomOut" (sysedit_buttonZoom "btnZoomIn" s)).sysedit_zoom
      = s.sysedit_zoom := by
  rw [zoomOut_zoom, zoomIn_zoom]
  rw [mem_zoomLevels] at h
  rcases h with h | h | h | h | h | h | h <;> rw [h] at hne ⊢ <;> norm_num [MIN, MAX] at hne ⊢

theorem zoomOut_then_in_levels (s : State) (h : s.sysedit_zoom ∈ zoomLevels)
    (hne : s.sysedit_zoom ≠ 1 / 4) :
    (sysedit_buttonZoom "btnZoomIn" (sysedit_buttonZoom "btnZoomOut" s)).sysedit_zoom
      = s.sysedit_zoom := by
  rw [zoomIn_zoom, zoomOut_zoom]
  rw [mem_zoomLevels] at h
  rcases h with h | h | h | h | h | h | h <;> rw [h] at hne ⊢ <;> norm_num [MIN, MAX] at hne ⊢

/-! ## Zoom statements -/

/-- C1. In every state reached from a freshly opened editor by a finite sequence of
zoom-in, zoom-out and mouse events the zoom lies in `[0.25, 2.5]`; in particular
it is positive, so the division of the pan by the zoom in a zoom step is defined. -/
theorem zoom_range_reachable (s0 : State) (es : List Event) :
    1 / 4 ≤ (run es (sysedit_open s0)).sysedit_zoom
      ∧ (run es (sysedit_open s0)).sysedit_zoom ≤ 5 / 2
      ∧ 0 < (run es (sysedit_open s0)).sysedit_zoom := by
  obtain ⟨h1, h2⟩ := run_range es (sysedit_open s0) (open_range s0)
  exact ⟨h1, h2, by linarith⟩

/-- C2, as stated, fails at zoom `1` (the zoom of a freshly opened editor): the
code zooms out to `0.75`, the symmetric rule gives `0.5`. -/
theorem zoomOut_symmetric_fails_at_one :
    (1 / 4 ≤ (sysedit_open State.initial).sysedit_zoom
        ∧ (sysedit_open State.initial).sysedit_zoom ≤ 5 / 2)
      ∧ (sysedit_buttonZoom "btnZoomOut" (sysedit_open State.initial)).sysedit_zoom = 3 / 4
      ∧ specZoomOut (sysedit_open State.initial).sysedit_zoom = 1 / 2 := by
  refine ⟨?_, ?_, ?_⟩
  · norm_num [sysedit_open]
  · rw [zoomOut_zoom]; norm_num [sysedit_open, MAX]
  · norm_num [specZoomOut, sysedit_open]

/-- C2, amended. One zoom-out yields `max (0.25, z - s)` where the step `s` is `0.5`
when the zoom before the step is strictly greater than `1` and `0.25` otherwise. -/
theorem zoomOut_step (s : State) :
    (sysedit_buttonZoom "btnZoomOut" s).sysedit_zoom
      = max (1 / 4) (s.sysedit_zoom - (if s.sysedit_zoom > 1 then 1 / 2 else 1 / 4)) := by
  rw [zoomOut_zoom, MAX_eq_max]

/-- C3. One zoom-in yields `min (2.5, z + s)` where the step `s` is `0.5` when the
zoom before the step is at least `1` and `0.25` otherwise; from `1.0` the result
is `1.5` and from `0.8` it is `1.05`. -/
theorem zoomIn_step (s : State) :
    (sysedit_buttonZoom "btnZoomIn" s).sysedit_zoom
        = min (5 / 2) (s.sysedit_zoom + (if s.sysedit_zoom ≥ 1 then 1 / 2 else 1 / 4))
      ∧ (sysedit_buttonZoom "btnZoomIn" { s with sysedit_zoom := 1 }).sysedit_zoom = 3 / 2
      ∧ (sysedit_buttonZoom "btnZoomIn" { s with sysedit_zoom := 4 / 5 }).sysedit_zoom
          = 21 / 20 := by
  refine ⟨?_, ?_, ?_⟩
  · rw [zoomIn_zoom, MIN_eq_min]
  · rw [zoomIn_zoom]; norm_num [MIN]
  · rw [zoomIn_zoom]; norm_num [MIN]

/-- C4. Across one zoom-in or zoom-out from a zoom in `[0.25, 2.5]` the pan becomes
`(pan / z) * z'` on both axes, so `pan' / z' = pan / z`: the world point at the
centre of the viewport is kept. -/
theorem pan_anchoring (s : State) (str : String)
    (hz : 1 / 4 ≤ s.sysedit_zoom ∧ s.sysedit_zoom ≤ 5 / 2)
    (hstr : str = "btnZoomIn" ∨ str = "btnZoomOut") :
    (sysedit_buttonZoom str s).sysedit_xpos
        = s.sysedit_xpos / s.sysedit_zoom * (sysedit_buttonZoom str s).sysedit_zoom
      ∧ (sysedit_buttonZoom str s).sysedit_ypos
        = s.sysedit_ypos / s.sysedit_zoom * (sysedit_buttonZoom str s).sysedit_zoom
      ∧ (sysedit_buttonZoom str s).sysedit_xpos / (sysedit_buttonZoom str s).sysedit_zoom
        = s.sysedit_xpos / s.sysedit_zoom
      ∧ (sysedit_buttonZoom str s).sysedit_ypos / (sysedit_buttonZoom str s).sysedit_zoom
        = s.sysedit_ypos / s.sysedit_zoom := by
  have hpos : (sysedit_buttonZoom str s).sysedit_zoom ≠ 0 := by
    have hr : zoomInRange (sysedit_buttonZoom str s) := by
      rcases hstr with h | h <;> subst h
      · exact zoomIn_range s hz
      · exact zoomOut_range s hz
    have := hr.1
    intro h0
    rw [h0] at this
    norm_num at this
  refine ⟨buttonZoom_xpos str s, buttonZoom_ypos str s, ?_, ?_⟩
  · rw [buttonZoom_xpos str s]; exact mul_div_cancel_right₀ _ hpos
  · rw [buttonZoom_ypos str s]; exact mul_div_cancel_right₀ _ hpos

/-- C4 at the specification's example: a pan of `100` at zoom `1.0` becomes `150`
after one zoom-in. -/
theorem pan_anchoring_example :
    (sysedit_buttonZoom "btnZoomIn" { State.initial with sysedit_xpos := 100 }).sysedit_xpos
      = 150 := by
  have h := (pan_anchoring { State.initial with sysedit_xpos := 100 } "btnZoomIn"
    (by norm_num [State.initial]) (Or.inl rfl)).1
  rw [h, zoomIn_zoom]
  norm_num [State.initial, MIN]

/-- C10. In every state reached from a freshly opened editor the zoom is one of
`0.25, 0.5, 0.75, 1, 1.5, 2, 2.5`; unless it is `2.5`, a zoom-in followed by a
zoom-out gives back the same state (zoom and pan included), and unless it is
`0.25`, a zoom-out followed by a zoom-in does. -/
theorem zoom_inverse_reachable (s0 : State) (es : List Event) :
    (run es (sysedit_open s0)).sysedit_zoom ∈ zoomLevels
      ∧ ((run es (sysedit_open s0)).sysedit_zoom ≠ 5 / 2 →
          sysedit_buttonZoom "btnZoomOut"
            (sysedit_buttonZoom "btnZoomIn" (run es (sysedit_open s0)))
            = run es (sysedit_open s0))
      ∧ ((run es (sysedit_open s0)).sysedit_zoom ≠ 1 / 4 →
          sysedit_buttonZoom "btnZoomIn"
            (sysedit_buttonZoom "btnZoomOut" (run es (sysedit_open s0)))
            = run es (sysedit_open s0)) := by
  have hl := run_levels es (sysedit_open s0) (open_levels s0)
  generalize run es (sysedit_open s0) = s at hl
  have h0 : s.sysedit_zoom ≠ 0 := (levels_pos _ hl).ne.symm
  refine ⟨hl, fun hne => ?_, fun hne => ?_⟩
  · exact buttonZoom_undo _ _ s h0 (levels_pos _ (zoomIn_levels s hl)).ne.symm
      (zoomIn_then_out_levels s hl hne)
  · exact buttonZoom_undo _ _ s h0 (levels_pos _ (zoomOut_levels s hl)).ne.symm
      (zoomOut_then_in_levels s hl hne)

/-- C10 on a run: after opening and one zoom-in, zooming in and out again gives the
state back. -/
theorem zoom_inverse_reachable_example :
    sysedit_buttonZoom "btnZoomOut" (sysedit_buttonZoom "btnZoomIn"
        (run [Event.zoomIn] (sysedit_open State.initial)))
      = run [Event.zoomIn] (sysedit_open State.initial) :=
  (zoom_inverse_reachable State.initial [Event.zoomIn]).2.1 (by
    show (sysedit_buttonZoom "btnZoomIn" (sysedit_open State.initial)).sysedit_zoom ≠ 5 / 2
    rw [zoomIn_zoom]; norm_num [sysedit_open, MIN])

/-! ## Auxiliary facts on the mouse handler -/

/-- C9, as stated, fails: whatever is read off the state left by the release, it
cannot call a release `100` ms after the press a click and a release `4000` ms
after the same press a drag, because the handler leaves the same state. -/
theorem release_does_not_classify :
    ¬ ∃ classify : State → Bool,
        classify (sysedit_mouse (releaseAt 1100)
            (sysedit_mouse (pressAt 1000) (sysedit_open State.initial))) = true
          ∧ classify (sysedit_mouse (releaseAt 5000)
            (sysedit_mouse (pressAt 1000) (sysedit_open State.initial))) = false := by
  rintro ⟨f, h1, h2⟩
  have e : sysedit_mouse (releaseAt 1100)
        (sysedit_mouse (pressAt 1000) (sysedit_open State.initial))
      = sysedit_mouse (releaseAt 5000)
        (sysedit_mouse (pressAt 1000) (sysedit_open State.initial)) := rfl
  rw [e, h2] at h1
  exact Bool.noConfusion h1

/-- C9, amended. The release that ends a pan-drag clears `sysedit_drag` and changes
nothing else, whatever the tick of the release and whatever `sysedit_moved` and
`sysedit_dragTime` hold: no click-or-drag classification takes place. -/
theorem release_only_ends_drag (c : MouseCall) (button : Nat) (s : State)
    (hev : c.event = .mouseButtonUp button) (hd : s.sysedit_drag ≠ 0) :
    sysedit_mouse c s = { s with sysedit_drag := 0 } := by
  unfold sysedit_mouse
  rw [hev]
  simp [hd]

/-- C9, amended, on the specification's gesture: a release `100` ms after the press. -/
theorem release_only_ends_drag_example :
    sysedit_mouse (releaseAt 1100) (sysedit_mouse (pressAt 1000) (sysedit_open State.initial))
      = { sysedit_mouse (pressAt 1000) (sysedit_open State.initial) with sysedit_drag := 0 } :=
  release_only_ends_drag (releaseAt 1100) 1 _ rfl (by decide)

/-! ## Rendering statements -/

end SysEdit

namespace NluaShiplog

theorem appendLog_status {σ : Type} (cv : LuaCoercions) (store : LogStore σ) (L : lua_State)
    (st : σ) (idstr msg : String)
    (h1 : luaL_checkstring cv L 1 = .ok idstr) (h2 : luaL_checkstring cv L 2 = .ok msg) :
    shiplog_appendLog cv store L st
      = .ok ((store.shiplog_append (cstr idstr) (cstr msg) st).1,
             (store.shiplog_append (cstr idstr) (cstr msg) st).2) := by
  unfold shiplog_appendLog
  rw [h1, h2]
  rfl

/-- C6 fails on `shiplog.createLog`. With two logs in the store, the call
`shiplog.createLog ("shadow", "Shadow Run", "mission", false)` makes the store
create the log and return `2`, and the binding returns `0` to the script; the
sibling `shiplog.appendLog ("nolog", "text")` returns the store's `-1` unchanged. -/
theorem createLog_drops_status :
    shiplog_createLog plainCoercions listStore createArgs twoLogs
        = .ok (0, twoLogs ++ [{ idstr := some "shadow", logname := "Shadow Run",
                                logtype := "mission", maxLen := 0, entries := [] }])
      ∧ (listStore.shiplog_create (some "shadow") "Shadow Run" "mission" 0 0 twoLogs).1 = 2
      ∧ shiplog_appendLog plainCoercions listStore [.string "nolog", .string "text"] twoLogs
        = .ok (-1, twoLogs)
      ∧ (listStore.shiplog_append "nolog" "text" twoLogs).1 = -1 := by
  refine ⟨?_, ?_, ?_, ?_⟩ <;> rfl

end NluaShiplog
